import Mathlib

/-!
Verification of the xab-gui IPC client core (src/ipc.rs, src/ipc_spec.rs).

The Rust code is shallowly embedded: the Unix stream socket becomes an
explicit `SocketState` (bytes still readable from the server, bytes written
so far, and a shutdown flag); fallible operations return `Except IpcError`;
a Rust panic (such as calling unwrap on a `None` value) is modelled as the
distinguished error `IpcError.panicked`; machine integers are `Nat`/`Int`
with explicit two-complement conversion where the code converts.
-/

/-- Bytes are modelled as natural numbers (wire bytes are < 256). -/
abbrev Byte := Nat

/-- Big-endian decoding of a byte list as an unsigned integer, as in
Rust u32::from_be_bytes applied to a 4-byte buffer. -/
def u32FromBeBytes (l : List Byte) : Nat :=
  l.foldl (fun acc b => acc * 256 + b) 0

/-- Big-endian decoding of a 4-byte buffer as a signed 32-bit integer,
as in Rust i32::from_be_bytes: the unsigned value reinterpreted in
two-complement. -/
def i32FromBeBytes (l : List Byte) : Int :=
  let v := u32FromBeBytes l
  if v < 2 ^ 31 then (v : Int) else (v : Int) - 2 ^ 32

/-- Big-endian encoding of an unsigned 32-bit value into 4 bytes,
as in Rust u32::to_be_bytes. -/
def u32ToBeBytes (v : Nat) : List Byte :=
  [v / 2 ^ 24 % 256, v / 2 ^ 16 % 256, v / 2 ^ 8 % 256, v % 256]

/-- Big-endian encoding of a signed 32-bit value into 4 bytes, as in Rust
i32::to_be_bytes: two-complement then unsigned encoding. -/
def i32ToBeBytes (v : Int) : List Byte :=
  u32ToBeBytes (v % 2 ^ 32).toNat

/-- Errors of the embedded client.  `ioError` stands for a transport
read/write failure, `unexpectedEof` for the cursor underrun error
produced inside Monitor.from_bytes, `versionMismatch` for the handshake
failure of IpcHandle::new (carrying server then client version), and
`panicked` for a Rust panic (unwrap on `None`/`Err`). -/
inductive IpcError where
  | ioError
  | unexpectedEof
  | versionMismatch (server client : Int)
  | panicked
deriving DecidableEq, Repr

/-- State of the Unix stream socket: bytes the server has made available
for reading, bytes the client has written, and whether the client shut
the transport down (both directions). -/
structure SocketState where
  input : List Byte
  output : List Byte
  isShutdown : Bool
deriving DecidableEq, Repr

/-- Rust read_exact on the socket: consume exactly `n` bytes of input or
fail. -/
def SocketState.readExact (s : SocketState) (n : Nat) :
    Except IpcError (List Byte × SocketState) :=
  if n ≤ s.input.length then
    .ok (s.input.take n, { s with input := s.input.drop n })
  else
    .error .ioError

/-- Rust write_all on the socket: append the bytes to the written stream. -/
def SocketState.writeAll (s : SocketState) (bs : List Byte) : SocketState :=
  { s with output := s.output ++ bs }

/-- Rust socket.shutdown(Shutdown::Both). -/
def SocketState.shutdownBoth (s : SocketState) : SocketState :=
  { s with isShutdown := true }

/-- ipc_spec.rs: pub const IPC_PROTO_VERSION: i32 = 1. -/
def IPC_PROTO_VERSION : Int := 1

/-- ipc_spec.rs: pub const IPC_PATH. -/
def IPC_PATH : String := "/tmp/xab/xab_uds"

/-- ipc_spec.rs: the IpcCommands enum (repr i32). -/
inductive IpcCommands where
  | NoneInvalid
  | None
  | Restart
  | Shutdown'
  | ClientDisconnect
  | ChangeBackground
  | DeleteBackground
  | PauseVideo
  | UnpauseVideo
  | TogglePauseVideo
  | GetMonitors
  | GetAllBackgrounds
  | GetCapabilites
deriving DecidableEq, Repr

/-- Discriminant values of IpcCommands, as declared in ipc_spec.rs
(the Rust expression `command as i32`). -/
def IpcCommands.toInt : IpcCommands → Int
  | .NoneInvalid => -1
  | .None => 0
  | .Restart => 1
  | .Shutdown' => 2
  | .ClientDisconnect => 3
  | .ChangeBackground => 4
  | .DeleteBackground => 5
  | .PauseVideo => 6
  | .UnpauseVideo => 7
  | .TogglePauseVideo => 8
  | .GetMonitors => 9
  | .GetAllBackgrounds => 10
  | .GetCapabilites => 11

/-- ipc_spec.rs: the Monitor record. -/
structure Monitor where
  index : Int
  primary : Bool
  x : Nat
  y : Nat
  width : Nat
  height : Nat
deriving DecidableEq, Repr

/-- ipc_spec.rs Monitor::fullscreen(): width and height of 0 mean
fullscreen. -/
def Monitor.fullscreen : Monitor :=
  { index := 0, primary := true, x := 0, y := 0, width := 0, height := 0 }

/-- Rust std::io::Cursor read_exact over a byte slice: read `n` bytes at
position `pos`, returning the bytes and the advanced position, or fail
with UnexpectedEof when fewer than `n` bytes remain. -/
def cursorReadExact (n : Nat) (bytes : List Byte) (pos : Nat) :
    Except IpcError (List Byte × Nat) :=
  if pos + n ≤ bytes.length then
    .ok ((bytes.drop pos).take n, pos + n)
  else
    .error .unexpectedEof

/-- ipc_spec.rs Monitor::from_bytes: sequential cursor reads of
4 (index, signed BE), 1 (primary flag, nonzero test), and four times 4
(x, y, width, height, unsigned BE) bytes; every failed read propagates
(the Rust question-mark operator). -/
def Monitor.from_bytes (bytes : List Byte) : Except IpcError Monitor :=
  match cursorReadExact 4 bytes 0 with
  | .error e => .error e
  | .ok (buf4, p) =>
    let index := i32FromBeBytes buf4
    match cursorReadExact 1 bytes p with
    | .error e => .error e
    | .ok (buf1, p) =>
      let primary := buf1.getD 0 0 != 0
      match cursorReadExact 4 bytes p with
      | .error e => .error e
      | .ok (buf4, p) =>
        let x := u32FromBeBytes buf4
        match cursorReadExact 4 bytes p with
        | .error e => .error e
        | .ok (buf4, p) =>
          let y := u32FromBeBytes buf4
          match cursorReadExact 4 bytes p with
          | .error e => .error e
          | .ok (buf4, p) =>
            let width := u32FromBeBytes buf4
            match cursorReadExact 4 bytes p with
            | .error e => .error e
            | .ok (buf4, _) =>
              let height := u32FromBeBytes buf4
              .ok { index, primary, x, y, width, height }

/-- ipc_spec.rs: the IpcXabCapabilities bitflags over u32. -/
structure IpcXabCapabilities where
  bits : Nat
deriving DecidableEq, Repr

/-- bitflags constant None = 0. -/
def IpcXabCapabilities.None : IpcXabCapabilities := ⟨0⟩

/-- bitflags constant CustomPositioning = 1 <<< 0. -/
def IpcXabCapabilities.CustomPositioning : IpcXabCapabilities := ⟨1⟩

/-- bitflags constant Monitors = 1 <<< 1. -/
def IpcXabCapabilities.Monitors : IpcXabCapabilities := ⟨2⟩

/-- ipc.rs refers to the multi-monitor capability as
IpcXabCapabilities::Multimonitor; ipc_spec.rs declares that flag under
the name Monitors (bit 1).  We bind the call-site name to that
declaration. -/
def IpcXabCapabilities.Multimonitor : IpcXabCapabilities :=
  IpcXabCapabilities.Monitors

/-- bitflags all(): union of every declared flag (0 ||| 1 ||| 2 = 3). -/
def IpcXabCapabilities.all : IpcXabCapabilities := ⟨3⟩

/-- bitflags from_bits_truncate: keep only the declared bits, silently
dropping unknown ones. -/
def IpcXabCapabilities.from_bits_truncate (w : Nat) : IpcXabCapabilities :=
  ⟨w &&& IpcXabCapabilities.all.bits⟩

/-- bitflags contains: every bit of the argument is present. -/
def IpcXabCapabilities.contains (a b : IpcXabCapabilities) : Bool :=
  a.bits &&& b.bits == b.bits

/-- ipc.rs IpcHandle (the socket lives in `SocketState`, passed
explicitly; the mutex is a concurrency artefact outside this model). -/
structure IpcHandle where
  path : String
  capabilities : IpcXabCapabilities
deriving DecidableEq, Repr

/-- ipc.rs IpcHandle::new, after the transport connect succeeded: read
the 4-byte server version, unconditionally echo the client version, on
mismatch shut the transport down and fail with a version-mismatch error,
otherwise read and truncate-decode the 4-byte capability word. -/
def IpcHandle.new (path : String) (s : SocketState) :
    Except IpcError IpcHandle × SocketState :=
  match s.readExact 4 with
  | .error e => (.error e, s)
  | .ok (buf, s1) =>
    let version : Int := i32FromBeBytes buf
    let s2 := s1.writeAll (i32ToBeBytes IPC_PROTO_VERSION)
    if version ≠ IPC_PROTO_VERSION then
      let s3 := s2.shutdownBoth
      (.error (.versionMismatch version IPC_PROTO_VERSION), s3)
    else
      match s2.readExact 4 with
      | .error e => (.error e, s2)
      | .ok (capBuf, s3) =>
        let capabilities :=
          IpcXabCapabilities.from_bits_truncate (u32FromBeBytes capBuf)
        (.ok { path := path, capabilities := capabilities }, s3)

/-- ipc.rs IpcHandle::send_recv_command: write the command word as a
4-byte big-endian signed integer, then read_exact into demz_bytes, a
buffer created by BytesMut::new() — which is zero-length, so the read
fills zero bytes — and wrap the buffer as Some when non-empty, None
when empty. -/
def send_recv_command (command : IpcCommands) (s : SocketState) :
    Except IpcError (Option (List Byte)) × SocketState :=
  let s1 := s.writeAll (i32ToBeBytes command.toInt)
  match s1.readExact 0 with
  | .error e => (.error e, s1)
  | .ok (demz_bytes, s2) =>
    (.ok (if demz_bytes.isEmpty then Option.none else Option.some demz_bytes), s2)

/-- Indices produced by the Rust iterator (0..len).step_by(21):
0, 21, 42, ... while below `len`. -/
def stepBy21 (len : Nat) : List Nat :=
  List.range' 0 ((len + 20) / 21) 21

/-- The decoding loop inlined in ipc.rs get_monitors (lines 128-136):
over the step-21 indices, keep a record only when a full 21-byte group
remains, decoding the 21-byte slice and discarding a decode failure
(Result::ok). -/
def decodeMonitors (bytes : List Byte) : List Monitor :=
  (stepBy21 bytes.length).filterMap (fun i =>
    if i + 21 ≤ bytes.length then
      (Monitor.from_bytes ((bytes.drop i).take 21)).toOption
    else
      Option.none)

/-- ipc.rs IpcHandle::get_monitors: when the capability set contains the
multi-monitor flag, run the GetMonitors exchange, unwrap the Result and
the Option (a Rust panic when either fails, modelled as
IpcError.panicked) and decode the payload; otherwise return the single
fullscreen sentinel without touching the transport. -/
def IpcHandle.get_monitors (h : IpcHandle) (s : SocketState) :
    Except IpcError (List Monitor) × SocketState :=
  if h.capabilities.contains IpcXabCapabilities.Multimonitor then
    match send_recv_command IpcCommands.GetMonitors s with
    | (.ok (Option.some monitors_bytes), s1) => (.ok (decodeMonitors monitors_bytes), s1)
    | (.ok Option.none, s1) => (.error .panicked, s1)
    | (.error _, s1) => (.error .panicked, s1)
  else
    (.ok [Monitor.fullscreen], s)

/-- Field extraction exactly as the spec describes the 21-byte record
layout: index = signed big-endian bytes 0..4, primary = byte at offset
4 nonzero, then x, y, width, height as unsigned big-endian 4-byte
groups at offsets 5, 9, 13, 17. -/
def monitorFields (bytes : List Byte) : Monitor :=
  { index := i32FromBeBytes (bytes.take 4)
    primary := bytes.getD 4 0 != 0
    x := u32FromBeBytes ((bytes.drop 5).take 4)
    y := u32FromBeBytes ((bytes.drop 9).take 4)
    width := u32FromBeBytes ((bytes.drop 13).take 4)
    height := u32FromBeBytes ((bytes.drop 17).take 4) }

deriving instance DecidableEq for Except

example : Monitor.from_bytes (List.range 21) =
    .ok (monitorFields (List.range 21)) := by decide

example : decodeMonitors (List.range 23) =
    [monitorFields (List.range 23)] := by decide

example : (IpcXabCapabilities.from_bits_truncate 3).bits = 3 := by decide

/-! ## Helper lemmas -/

lemma cursorReadExact_ok (n : Nat) (bytes : List Byte) (pos : Nat)
    (h : pos + n ≤ bytes.length) :
    cursorReadExact n bytes pos = .ok ((bytes.drop pos).take n, pos + n) := by
  simp [cursorReadExact, h]

lemma cursorReadExact_err (n : Nat) (bytes : List Byte) (pos : Nat)
    (h : bytes.length < pos + n) :
    cursorReadExact n bytes pos = .error .unexpectedEof := by
  simp only [cursorReadExact]
  rw [if_neg (by omega)]

lemma getD_zero_take_one_drop (l : List Byte) (m : Nat) :
    ((l.drop m).take 1).getD 0 0 = l.getD m 0 := by
  simp [List.getD_eq_getElem?_getD, List.getElem?_take, List.getElem?_drop]

lemma from_bytes_ok (bytes : List Byte) (h : 21 ≤ bytes.length) :
    Monitor.from_bytes bytes = .ok (monitorFields bytes) := by
  have h1 : cursorReadExact 4 bytes 0 = .ok (bytes.take 4, 4) := by
    rw [cursorReadExact_ok 4 bytes 0 (by omega)]
    simp
  have h2 : cursorReadExact 1 bytes 4 = .ok ((bytes.drop 4).take 1, 5) :=
    cursorReadExact_ok 1 bytes 4 (by omega)
  have h3 : cursorReadExact 4 bytes 5 = .ok ((bytes.drop 5).take 4, 9) :=
    cursorReadExact_ok 4 bytes 5 (by omega)
  have h4 : cursorReadExact 4 bytes 9 = .ok ((bytes.drop 9).take 4, 13) :=
    cursorReadExact_ok 4 bytes 9 (by omega)
  have h5 : cursorReadExact 4 bytes 13 = .ok ((bytes.drop 13).take 4, 17) :=
    cursorReadExact_ok 4 bytes 13 (by omega)
  have h6 : cursorReadExact 4 bytes 17 = .ok ((bytes.drop 17).take 4, 21) :=
    cursorReadExact_ok 4 bytes 17 (by omega)
  simp only [Monitor.from_bytes, h1, h2, h3, h4, h5, h6]
  simp [monitorFields, getD_zero_take_one_drop]

lemma from_bytes_err (bytes : List Byte) (h : bytes.length < 21) :
    Monitor.from_bytes bytes = .error .unexpectedEof := by
  by_cases c1 : bytes.length < 4
  · simp only [Monitor.from_bytes, cursorReadExact_err 4 bytes 0 (by omega)]
  · have h1 : cursorReadExact 4 bytes 0 = .ok (bytes.take 4, 4) := by
      rw [cursorReadExact_ok 4 bytes 0 (by omega)]
      simp
    by_cases c2 : bytes.length < 5
    · simp only [Monitor.from_bytes, h1, cursorReadExact_err 1 bytes 4 (by omega)]
    · have h2 : cursorReadExact 1 bytes 4 = .ok ((bytes.drop 4).take 1, 5) :=
        cursorReadExact_ok 1 bytes 4 (by omega)
      by_cases c3 : bytes.length < 9
      · simp only [Monitor.from_bytes, h1, h2,
          cursorReadExact_err 4 bytes 5 (by omega)]
      · have h3 : cursorReadExact 4 bytes 5 = .ok ((bytes.drop 5).take 4, 9) :=
          cursorReadExact_ok 4 bytes 5 (by omega)
        by_cases c4 : bytes.length < 13
        · simp only [Monitor.from_bytes, h1, h2, h3,
            cursorReadExact_err 4 bytes 9 (by omega)]
        · have h4 : cursorReadExact 4 bytes 9 = .ok ((bytes.drop 9).take 4, 13) :=
            cursorReadExact_ok 4 bytes 9 (by omega)
          by_cases c5 : bytes.length < 17
          · simp only [Monitor.from_bytes, h1, h2, h3, h4,
              cursorReadExact_err 4 bytes 13 (by omega)]
          · have h5 : cursorReadExact 4 bytes 13 = .ok ((bytes.drop 13).take 4, 17) :=
              cursorReadExact_ok 4 bytes 13 (by omega)
            simp only [Monitor.from_bytes, h1, h2, h3, h4, h5,
              cursorReadExact_err 4 bytes 17 (by omega)]

lemma monitorFields_take (l : List Byte) :
    monitorFields (l.take 21) = monitorFields l := by
  simp [monitorFields, List.take_take, List.drop_take,
    List.getD_eq_getElem?_getD, List.getElem?_take]

lemma send_recv_command_eq (c : IpcCommands) (s : SocketState) :
    send_recv_command c s =
      (.ok Option.none, s.writeAll (i32ToBeBytes c.toInt)) := by
  simp [send_recv_command, SocketState.readExact, SocketState.writeAll]

lemma from_bits_truncate_bits (w : Nat) :
    (IpcXabCapabilities.from_bits_truncate w).bits = w % 4 := by
  simp only [IpcXabCapabilities.from_bits_truncate, IpcXabCapabilities.all]
  have h3 : (3 : Nat) = 2 ^ 2 - 1 := by norm_num
  rw [h3, Nat.and_pow_two_sub_one_eq_mod]

/-! ## Claim theorems -/

/-- C7: for every byte buffer of length at least 21, Monitor.from_bytes
consumes only the first 21 bytes (its result equals the result on the
21-byte prefix, so trailing bytes never cause a failure) and returns the
record with index = signed big-endian bytes 0..4, primary = (byte at
offset 4 nonzero), and x, y, width, height = unsigned big-endian 4-byte
groups at offsets 5, 9, 13, 17. -/
theorem monitor_from_bytes_spec (bytes : List Byte) (h : 21 ≤ bytes.length) :
    Monitor.from_bytes bytes = .ok (monitorFields bytes) ∧
    Monitor.from_bytes bytes = Monitor.from_bytes (bytes.take 21) := by
  have htk : 21 ≤ (bytes.take 21).length := by
    simp [List.length_take]
    omega
  refine ⟨from_bytes_ok bytes h, ?_⟩
  rw [from_bytes_ok bytes h, from_bytes_ok (bytes.take 21) htk,
    monitorFields_take]

theorem monitor_from_bytes_spec_witness :
    21 ≤ (List.range 22).length ∧
    (Monitor.from_bytes (List.range 22) = .ok (monitorFields (List.range 22)) ∧
      Monitor.from_bytes (List.range 22) =
        Monitor.from_bytes ((List.range 22).take 21)) :=
  ⟨by decide, monitor_from_bytes_spec (List.range 22) (by decide)⟩

/-- C9: decoding fewer than 21 bytes always yields a decode error
(the cursor underrun error), never a record. -/
theorem monitor_from_bytes_undersized (bytes : List Byte)
    (h : bytes.length < 21) :
    Monitor.from_bytes bytes = .error .unexpectedEof :=
  from_bytes_err bytes h

theorem monitor_from_bytes_undersized_witness :
    (List.range 5).length < 21 ∧
    Monitor.from_bytes (List.range 5) = .error .unexpectedEof :=
  ⟨by decide, monitor_from_bytes_undersized (List.range 5) (by decide)⟩

/-- C10: Monitor.from_bytes succeeds on every input of at least 21
bytes; no field value is rejected, so the error branch is unreachable
under the 21-byte-minimum precondition. -/
theorem monitor_from_bytes_total (bytes : List Byte) (h : 21 ≤ bytes.length) :
    ∃ m : Monitor, Monitor.from_bytes bytes = .ok m :=
  ⟨monitorFields bytes, from_bytes_ok bytes h⟩

theorem monitor_from_bytes_total_witness :
    21 ≤ (List.range 21).length ∧
    ∃ m : Monitor, Monitor.from_bytes (List.range 21) = .ok m :=
  ⟨by decide, monitor_from_bytes_total (List.range 21) (by decide)⟩

/-- C2 counterexample: the capability word 0x00000003 does not decode
with bit 1 ignored — the decoded set keeps bit 1 (the Monitors flag,
which is the multi-monitor capability), so the decoded bits differ from
keeping only bit 0. -/
theorem capability_bit1_not_ignored :
    (IpcXabCapabilities.from_bits_truncate 3).contains
        IpcXabCapabilities.Monitors = true ∧
    (IpcXabCapabilities.from_bits_truncate 3).bits ≠ (3 : Nat) &&& 1 := by
  decide

/-- C2 amended: decoding the 4-byte capability bitmask maps bit 0 to the
CustomPositioning capability and bit 1 to the Monitors (multi-monitor)
capability; every bit above bit 1 decodes as absent (the decoded bits
are below 4); in particular 0x00000003 decodes with both flags
present. -/
theorem capability_decode_bits (w : Nat) :
    ((IpcXabCapabilities.from_bits_truncate w).contains
        IpcXabCapabilities.CustomPositioning = true ↔ w % 2 = 1) ∧
    ((IpcXabCapabilities.from_bits_truncate w).contains
        IpcXabCapabilities.Monitors = true ↔ w / 2 % 2 = 1) ∧
    (IpcXabCapabilities.from_bits_truncate w).bits < 4 ∧
    (IpcXabCapabilities.from_bits_truncate 3).contains
        IpcXabCapabilities.CustomPositioning = true ∧
    (IpcXabCapabilities.from_bits_truncate 3).contains
        IpcXabCapabilities.Monitors = true := by
  refine ⟨?_, ?_, ?_, by decide, by decide⟩
  · simp [IpcXabCapabilities.contains, from_bits_truncate_bits,
      IpcXabCapabilities.CustomPositioning, Nat.and_one_is_mod]
    omega
  · simp only [IpcXabCapabilities.contains, from_bits_truncate_bits,
      IpcXabCapabilities.Monitors, beq_iff_eq]
    have hcases : w % 4 = 0 ∨ w % 4 = 1 ∨ w % 4 = 2 ∨ w % 4 = 3 := by omega
    rcases hcases with hc | hc | hc | hc
    · rw [hc, (show (0 : Nat) &&& 2 = 0 by decide)]
      omega
    · rw [hc, (show (1 : Nat) &&& 2 = 0 by decide)]
      omega
    · rw [hc, (show (2 : Nat) &&& 2 = 2 by decide)]
      omega
    · rw [hc, (show (3 : Nat) &&& 2 = 2 by decide)]
      omega
  · rw [from_bits_truncate_bits]
    omega

/-- C3: during construction, when the server-sent version differs from
the client constant, the client still echoes its own 4-byte version
exactly once (the output grows by exactly that one write), shuts the
transport down in both directions, consumes only the 4 version bytes
(so no capability read is attempted), and fails with a
version-mismatch error carrying both version numbers. -/
theorem handshake_mismatch (p : String) (s : SocketState) (v : Int)
    (hlen : 4 ≤ s.input.length)
    (hv : i32FromBeBytes (s.input.take 4) = v)
    (hne : v ≠ IPC_PROTO_VERSION) :
    IpcHandle.new p s =
      (.error (.versionMismatch v IPC_PROTO_VERSION),
        { input := s.input.drop 4,
          output := s.output ++ i32ToBeBytes IPC_PROTO_VERSION,
          isShutdown := true }) := by
  have h1 : s.readExact 4 =
      .ok (s.input.take 4, { s with input := s.input.drop 4 }) := by
    simp [SocketState.readExact, hlen]
  simp only [IpcHandle.new, h1, hv]
  rw [if_pos hne]
  simp [SocketState.writeAll, SocketState.shutdownBoth]

theorem handshake_mismatch_witness :
    4 ≤ ([0, 0, 0, 2] : List Byte).length ∧
    i32FromBeBytes (([0, 0, 0, 2] : List Byte).take 4) = 2 ∧
    (2 : Int) ≠ IPC_PROTO_VERSION ∧
    IpcHandle.new "p" ⟨[0, 0, 0, 2], [], false⟩ =
      (.error (.versionMismatch 2 IPC_PROTO_VERSION),
        ⟨[], [0, 0, 0, 1], true⟩) :=
  ⟨by decide, by decide, by decide,
    handshake_mismatch "p" ⟨[0, 0, 0, 2], [], false⟩ 2 (by decide) (by decide)
      (by decide)⟩

/-- C5: when the negotiated capability set lacks the multi-monitor
flag, get_monitors returns exactly the single fullscreen sentinel and
the socket state is unchanged: no reads and no writes happen on the
transport. -/
theorem get_monitors_fallback (h : IpcHandle) (s : SocketState)
    (hcap : h.capabilities.contains IpcXabCapabilities.Multimonitor = false) :
    h.get_monitors s = (.ok [Monitor.fullscreen], s) := by
  simp [IpcHandle.get_monitors, hcap]

theorem get_monitors_fallback_witness :
    (IpcHandle.mk "p" ⟨0⟩).capabilities.contains
        IpcXabCapabilities.Multimonitor = false ∧
    (IpcHandle.mk "p" ⟨0⟩).get_monitors ⟨[], [], false⟩ =
      (.ok [Monitor.fullscreen], ⟨[], [], false⟩) :=
  ⟨by decide,
    get_monitors_fallback (IpcHandle.mk "p" ⟨0⟩) ⟨[], [], false⟩ (by decide)⟩

/-- C4: when the capability set contains the multi-monitor flag and the
GetMonitors exchange yields an absent (None) payload, get_monitors
fails — the code unwraps the absent payload, a panic modelled as the
error outcome `IpcError.panicked` — instead of treating the absence as
a valid empty monitor list. -/
theorem get_monitors_absent_payload (h : IpcHandle) (s : SocketState)
    (hcap : h.capabilities.contains IpcXabCapabilities.Multimonitor = true)
    (_habs : (send_recv_command IpcCommands.GetMonitors s).1 = .ok Option.none) :
    (h.get_monitors s).1 = .error .panicked := by
  have he := send_recv_command_eq IpcCommands.GetMonitors s
  simp [IpcHandle.get_monitors, hcap, he]

theorem get_monitors_absent_payload_witness :
    (IpcHandle.mk "p" ⟨2⟩).capabilities.contains
        IpcXabCapabilities.Multimonitor = true ∧
    (send_recv_command IpcCommands.GetMonitors ⟨[], [], false⟩).1 =
      .ok Option.none ∧
    ((IpcHandle.mk "p" ⟨2⟩).get_monitors ⟨[], [], false⟩).1 =
      .error .panicked :=
  ⟨by decide, by decide,
    get_monitors_absent_payload (IpcHandle.mk "p" ⟨2⟩) ⟨[], [], false⟩
      (by decide) (by decide)⟩

/-- C1, evaluated at the failing input: with a non-empty 21-byte payload
available from the server, send_recv_command writes the 4-byte
big-endian command word but returns the absent result (None) and leaves
the payload unread — the read goes through the zero-length buffer
created by BytesMut::new(), so the payload the server sent is never
drained. -/
theorem send_recv_command_drops_payload :
    send_recv_command IpcCommands.GetMonitors ⟨List.range 21, [], false⟩ =
      (.ok Option.none, ⟨List.range 21, [0, 0, 0, 9], false⟩) := by
  decide

/-- C8: decoding a capability word equals decoding the same word with
all unknown bits cleared (masking to the known bits, bitflags all());
the decode is a total function, so it never fails on unknown bits. -/
theorem capability_truncation (w : Nat) :
    IpcXabCapabilities.from_bits_truncate w =
      IpcXabCapabilities.from_bits_truncate
        (w &&& IpcXabCapabilities.all.bits) := by
  simp [IpcXabCapabilities.from_bits_truncate, IpcXabCapabilities.all,
    Nat.and_assoc]

lemma decodeMonitors_short (bytes : List Byte) (h : bytes.length < 21) :
    decodeMonitors bytes = [] := by
  unfold decodeMonitors
  rw [List.filterMap_eq_nil_iff]
  intro i _
  rw [if_neg (by omega)]

lemma decodeMonitors_cons (bytes : List Byte) (h : 21 ≤ bytes.length) :
    decodeMonitors bytes = monitorFields bytes :: decodeMonitors (bytes.drop 21) := by
  have hstep : (bytes.length + 20) / 21 = ((bytes.drop 21).length + 20) / 21 + 1 := by
    rw [List.length_drop]
    omega
  have htk : 21 ≤ (bytes.take 21).length := by
    rw [List.length_take]
    omega
  have hhead : (if 0 + 21 ≤ bytes.length then
      (Monitor.from_bytes ((bytes.drop 0).take 21)).toOption else Option.none) =
      Option.some (monitorFields bytes) := by
    rw [if_pos (show (0 : Nat) + 21 ≤ bytes.length by omega), List.drop_zero,
      from_bytes_ok (bytes.take 21) htk, monitorFields_take]
    rfl
  have htail : (List.range' 21 (((bytes.drop 21).length + 20) / 21) 21).filterMap
      (fun i => if i + 21 ≤ bytes.length then
        (Monitor.from_bytes ((bytes.drop i).take 21)).toOption else Option.none) =
      (List.range' 0 (((bytes.drop 21).length + 20) / 21) 21).filterMap
      (fun i => if i + 21 ≤ (bytes.drop 21).length then
        (Monitor.from_bytes (((bytes.drop 21).drop i).take 21)).toOption
      else Option.none) := by
    have hm := List.map_add_range' 21 0 (((bytes.drop 21).length + 20) / 21) 21
    rw [Nat.add_zero] at hm
    rw [← hm, List.filterMap_map]
    apply List.filterMap_congr
    intro i _
    have hiff : (21 + i + 21 ≤ bytes.length) ↔ i + 21 ≤ (bytes.drop 21).length := by
      rw [List.length_drop]
      omega
    simp only [Function.comp_apply, List.drop_drop, hiff]
  unfold decodeMonitors stepBy21
  rw [hstep, List.range'_succ, Nat.zero_add, List.filterMap_cons, hhead, htail]

/-- C6: decoding a monitor payload of length 21 times N plus R with
R < 21 yields exactly the N records taken at consecutive 21-byte
offsets in order, with the trailing R bytes silently ignored. -/
theorem decode_monitors_chunks (N R : Nat) (bytes : List Byte)
    (hR : R < 21) (hlen : bytes.length = 21 * N + R) :
    decodeMonitors bytes =
      (List.range N).map (fun k => monitorFields (bytes.drop (21 * k))) := by
  induction N generalizing bytes with
  | zero =>
    rw [decodeMonitors_short bytes (by omega)]
    simp
  | succ n ih =>
    have hdl : (bytes.drop 21).length = 21 * n + R := by
      rw [List.length_drop]
      omega
    rw [decodeMonitors_cons bytes (by omega), ih (bytes.drop 21) hdl,
      List.range_succ_eq_map, List.map_cons, List.map_map]
    congr 1
    apply List.map_congr_left
    intro k _
    simp only [Function.comp_apply, List.drop_drop, Nat.succ_eq_add_one]
    have h21k : 21 + 21 * k = 21 * (k + 1) := by omega
    rw [h21k]

theorem decode_monitors_chunks_witness :
    (2 : Nat) < 21 ∧ (List.range 23).length = 21 * 1 + 2 ∧
    decodeMonitors (List.range 23) =
      (List.range 1).map (fun k => monitorFields ((List.range 23).drop (21 * k))) :=
  ⟨by decide, by decide,
    decode_monitors_chunks 1 2 (List.range 23) (by decide) (by decide)⟩
